import Mathlib

/-!
Verification development for the LogisticsProject optimization engine.

The Python sources are shallowly embedded: pure computations become Lean
functions, the CP-SAT constraint sets emitted by the builders become explicit
predicates over assignments of the involved (integer / boolean) variables, and
the external solver of the Dinkelbach loop becomes an abstract status/value
oracle.  Python `int` is `Int`; Python `//` is `Int.fdiv` (floor division);
Python `int(x)` on a float is `Int.tdiv`-style truncation; Python floats that
only feed comparisons and products are embedded as rationals.
-/

namespace Logistics

/-! ### DemandStep.py -/

/-- `DemandStep` record: interval right end (`time_limit`, minutes) and demand
multiplier scaled by 100. -/
structure DemandStep where
  time_limit : Int
  multiplier_x100 : Int
deriving DecidableEq, Repr

/-- Lower bound of segment `i` in `get_max_demand_at_time`:
`self.steps[i - 1].time_limit if i > 0 else 0`. -/
def segLower (steps : List DemandStep) (i : Fin steps.length) : Int :=
  if _h : i.val = 0 then 0
  else (steps.get ⟨i.val - 1, Nat.lt_of_le_of_lt (Nat.sub_le _ _) i.isLt⟩).time_limit

/-- `calculated_demand = (base_demand * step.multiplier_x100) // 100`. -/
def calculatedDemand (base : Int) (st : DemandStep) : Int :=
  Int.fdiv (base * st.multiplier_x100) 100

/-- Upper bound of the `max_vol_at_t` variable: `int(base_demand * 1.5)`
(truncating float conversion). -/
def maxVolUpper (base : Int) : Int :=
  Int.tdiv (3 * base) 2

/-- Feasibility of one call of `DemandManager.get_max_demand_at_time` for the
assignment `arrival` of the arrival-time variable, `cap` of the returned
`max_vol_at_t` variable and `seg` of the per-segment indicator booleans:
the domain of `max_vol_at_t`, the two constraints enforced by each true
indicator (`AddLinearConstraint(arrival_time, lower_limit, step.time_limit-1)`
and `max_vol_at_t == calculated_demand`), and `sum(segments) == 1`. -/
def demandFeasible (steps : List DemandStep) (base arrival cap : Int)
    (seg : Fin steps.length → Bool) : Prop :=
  (0 ≤ cap ∧ cap ≤ maxVolUpper base) ∧
  (∀ i : Fin steps.length, seg i = true →
      segLower steps i ≤ arrival ∧ arrival ≤ (steps.get i).time_limit - 1 ∧
      cap = calculatedDemand base (steps.get i)) ∧
  (Finset.univ.filter fun i : Fin steps.length => seg i = true).card = 1

instance (steps : List DemandStep) (base arrival cap : Int)
    (seg : Fin steps.length → Bool) : Decidable (demandFeasible steps base arrival cap seg) := by
  unfold demandFeasible; infer_instance

/-- `DemandManager.__init__` sorts the given steps by `time_limit`
(`sorted(steps, key=lambda x: x.time_limit)`). -/
def stepLE (a b : DemandStep) : Prop := a.time_limit ≤ b.time_limit

instance : DecidableRel stepLE := fun a b => Int.decLe a.time_limit b.time_limit

instance : IsTotal DemandStep stepLE := ⟨fun a b => le_total a.time_limit b.time_limit⟩

instance : IsTrans DemandStep stepLE := ⟨fun _ _ _ hab hbc => le_trans hab hbc⟩

/-- The sorted step list stored by `DemandManager`. -/
def sortedSteps (steps : List DemandStep) : List DemandStep :=
  steps.insertionSort stepLE

/-- Data of the constraints emitted for the sorted step list: one triple
`(lower_limit, time_limit - 1, calculated_demand)` per segment, in emission
order, threading the previous step's `time_limit` as the next lower limit. -/
def emittedSegmentsAux (base : Int) (lower : Int) : List DemandStep → List (Int × Int × Int)
  | [] => []
  | st :: rest =>
      (lower, st.time_limit - 1, calculatedDemand base st) :: emittedSegmentsAux base st.time_limit rest

/-- Interval bounds and cap values emitted by `get_max_demand_at_time` on a
`DemandManager` constructed from `steps`. -/
def demandManagerEmitted (steps : List DemandStep) (base : Int) : List (Int × Int × Int) :=
  emittedSegmentsAux base 0 (sortedSteps steps)

/-- The piecewise demand-cap value at a concrete arrival time `t`: the
`calculated_demand` of the unique interval `[lower, time_limit - 1]`
containing `t` (`none` when no interval contains `t`). -/
def capValueAtAux (base t : Int) (lower : Int) : List DemandStep → Option Int
  | [] => none
  | st :: rest =>
      if lower ≤ t ∧ t ≤ st.time_limit - 1 then some (calculatedDemand base st)
      else capValueAtAux base t st.time_limit rest

/-- Demand-cap step function evaluated at `t` over an (already sorted) step list. -/
def capValueAt (steps : List DemandStep) (base t : Int) : Option Int :=
  capValueAtAux base t 0 steps

/-! ### Helper lemmas about sorted step lists -/

lemma time_limit_lt_of_lt {steps : List DemandStep}
    (hsort : steps.Pairwise fun a b => a.time_limit < b.time_limit)
    {i j : Fin steps.length} (h : i.val < j.val) :
    (steps.get i).time_limit < (steps.get j).time_limit := by
  rw [List.pairwise_iff_get] at hsort
  exact hsort i j h

lemma time_limit_le_segLower {steps : List DemandStep}
    (hsort : steps.Pairwise fun a b => a.time_limit < b.time_limit)
    {i j : Fin steps.length} (h : i.val < j.val) :
    (steps.get i).time_limit ≤ segLower steps j := by
  have hj0 : j.val ≠ 0 := by omega
  unfold segLower
  rw [dif_neg hj0]
  rcases Nat.lt_or_ge i.val (j.val - 1) with hlt | hge
  · exact le_of_lt (time_limit_lt_of_lt hsort (i := i) (j := ⟨j.val - 1, _⟩) hlt)
  · have hieq : i.val = j.val - 1 := by omega
    have : i = (⟨j.val - 1, Nat.lt_of_le_of_lt (Nat.sub_le _ _) j.isLt⟩ : Fin steps.length) :=
      Fin.ext hieq
    rw [← this]

/-- Two segments whose intervals both contain `t` coincide (sorted, distinct
time limits). -/
lemma segment_unique {steps : List DemandStep}
    (hsort : steps.Pairwise fun a b => a.time_limit < b.time_limit)
    {i j : Fin steps.length} {t : Int}
    (hi1 : segLower steps i ≤ t) (hi2 : t ≤ (steps.get i).time_limit - 1)
    (hj1 : segLower steps j ≤ t) (hj2 : t ≤ (steps.get j).time_limit - 1) :
    i = j := by
  rcases Nat.lt_trichotomy i.val j.val with hlt | heq | hgt
  · exact absurd (le_trans (time_limit_le_segLower hsort hlt) hj1) (by omega)
  · exact Fin.ext heq
  · exact absurd (le_trans (time_limit_le_segLower hsort hgt) hi1) (by omega)

/-- Exactly one segment indicator is true in a feasible assignment. -/
lemma exists_unique_true_seg {steps : List DemandStep} {seg : Fin steps.length → Bool}
    (hcard : (Finset.univ.filter fun i : Fin steps.length => seg i = true).card = 1) :
    ∃! i : Fin steps.length, seg i = true := by
  obtain ⟨a, ha⟩ := Finset.card_eq_one.mp hcard
  refine ⟨a, ?_, ?_⟩
  · have : a ∈ Finset.univ.filter fun i : Fin steps.length => seg i = true := by
      rw [ha]; exact Finset.mem_singleton_self a
    exact (Finset.mem_filter.mp this).2
  · intro b hb
    have : b ∈ Finset.univ.filter fun i : Fin steps.length => seg i = true :=
      Finset.mem_filter.mpr ⟨Finset.mem_univ b, hb⟩
    rw [ha] at this
    exact Finset.mem_singleton.mp this

/-- C1: in every feasible assignment of the constraints emitted by
`DemandManager.get_max_demand_at_time` (steps sorted ascending with distinct
time limits), exactly one interval indicator is true, the true indicator is
that of the unique interval `[previous time_limit (0 first), time_limit - 1]`
containing the arrival-time value, and the cap variable equals
`floor(base_demand * multiplier_x100 / 100)` of that interval. -/
theorem demand_cap_exactly_one_segment
    (steps : List DemandStep) (base arrival cap : Int) (seg : Fin steps.length → Bool)
    (hsort : steps.Pairwise fun a b => a.time_limit < b.time_limit)
    (hfeas : demandFeasible steps base arrival cap seg) :
    (∃! i : Fin steps.length, seg i = true) ∧
    ∀ i : Fin steps.length, seg i = true →
      (segLower steps i ≤ arrival ∧ arrival ≤ (steps.get i).time_limit - 1) ∧
      (∀ j : Fin steps.length, segLower steps j ≤ arrival →
          arrival ≤ (steps.get j).time_limit - 1 → j = i) ∧
      cap = calculatedDemand base (steps.get i) := by
  obtain ⟨_hdom, hseg, hcard⟩ := hfeas
  refine ⟨exists_unique_true_seg hcard, fun i hi => ?_⟩
  obtain ⟨h1, h2, h3⟩ := hseg i hi
  exact ⟨⟨h1, h2⟩, fun j hj1 hj2 => segment_unique hsort hj1 hj2 h1 h2, h3⟩

/-- Example step list used by the C1 witness. -/
def exSteps : List DemandStep := [⟨10, 100⟩, ⟨20, 50⟩]

/-- Example segment-indicator assignment used by the C1 witness. -/
def exSeg : Fin exSteps.length → Bool := fun i => decide (i.val = 1)

/-- C1 witness: the theorem applied to a concrete feasible assignment
(arrival 15 lies in the second interval `[10, 19]`, cap `50 = (100*50)//100`). -/
theorem demand_cap_exactly_one_segment_witness :
    (∃! i : Fin exSteps.length, exSeg i = true) ∧
    ∀ i : Fin exSteps.length, exSeg i = true →
      (segLower exSteps i ≤ 15 ∧ 15 ≤ (exSteps.get i).time_limit - 1) ∧
      (∀ j : Fin exSteps.length, segLower exSteps j ≤ 15 →
          15 ≤ (exSteps.get j).time_limit - 1 → j = i) ∧
      (50 : Int) = calculatedDemand 100 (exSteps.get i) :=
  demand_cap_exactly_one_segment exSteps 100 15 50 exSeg (by decide) (by decide)

/-- C8 counterexample: with the single step `(time_limit 10, multiplier 100)`,
the arrival value 10 — inside the arrival variable's domain `[0, 1440]` but at
the last step's `time_limit` — admits no satisfying assignment of the emitted
constraints: the intervals do not cover arrival times at or beyond the last
`time_limit`. -/
theorem demand_steps_gap_at_last_limit :
    (∃ cap : Int, ∃ seg : Fin ([⟨10, 100⟩] : List DemandStep).length → Bool,
        demandFeasible [⟨10, 100⟩] 100 10 cap seg) = False := by
  simp only [eq_iff_iff, iff_false]
  rintro ⟨cap, seg, _hdom, hseg, hcard⟩
  obtain ⟨a, ha, -⟩ := exists_unique_true_seg hcard
  obtain ⟨h1, h2, -⟩ := hseg a ha
  obtain ⟨av, hv⟩ := a
  have hv1 : av < 1 := hv
  have hav : av = 0 := by omega
  subst hav
  have hget : (([⟨10, 100⟩] : List DemandStep).get ⟨0, hv⟩).time_limit = 10 := rfl
  rw [hget] at h2
  omega

/-- In a sorted step list, every arrival value in `[0, last time_limit - 1]`
lies in some segment's interval. -/
lemma exists_covering_segment :
    ∀ (steps : List DemandStep) (hne : steps ≠ []) (t : Int), 0 ≤ t →
      t ≤ (steps.getLast hne).time_limit - 1 →
      ∃ i : Fin steps.length, segLower steps i ≤ t ∧ t ≤ (steps.get i).time_limit - 1
  | [], hne, _, _, _ => absurd rfl hne
  | st :: rest, _hne, t, h0, hlast => by
      by_cases hfirst : t ≤ st.time_limit - 1
      · exact ⟨⟨0, Nat.succ_pos _⟩, by simpa [segLower] using h0, by simpa [List.get] using hfirst⟩
      · have hrest : rest ≠ [] := by
          intro h
          subst h
          simp only [List.getLast_singleton] at hlast
          omega
        have hlast' : t ≤ (rest.getLast hrest).time_limit - 1 := by
          rwa [List.getLast_cons hrest] at hlast
        obtain ⟨i, hi1, hi2⟩ := exists_covering_segment rest hrest t h0 hlast'
        refine ⟨⟨i.val + 1, Nat.succ_lt_succ i.isLt⟩, ?_, ?_⟩
        · have hseg : segLower (st :: rest) ⟨i.val + 1, Nat.succ_lt_succ i.isLt⟩ =
              ((st :: rest).get ⟨i.val, Nat.lt_succ_of_lt i.isLt⟩).time_limit := by
            unfold segLower
            rw [dif_neg (Nat.succ_ne_zero _)]
            rfl
          rw [hseg]
          match i, hi1 with
          | ⟨0, _hlt⟩, _hi1 =>
            simpa only [List.get] using (by omega : st.time_limit ≤ t)
          | ⟨k + 1, hlt⟩, hi1 =>
            have hseg2 : segLower rest ⟨k + 1, hlt⟩ = (rest.get ⟨k, by omega⟩).time_limit := by
              unfold segLower
              rw [dif_neg (Nat.succ_ne_zero _)]
              rfl
            rw [hseg2] at hi1
            simpa only [List.get] using hi1
        · simpa only [List.get] using hi2

/-- C8 amended: the intervals emitted for a nonempty, strictly sorted step
list cover exactly the arrival values in `[0, last time_limit - 1]`: every
arrival value in the variable domain `[0, 1440]` below the last `time_limit`
admits a satisfying assignment (when every step's cap value fits the
`max_vol_at_t` domain), and every arrival value at or beyond the last
`time_limit` admits none. -/
theorem demand_steps_coverage_amended
    (steps : List DemandStep) (base arrival : Int) (hne : steps ≠ [])
    (hsort : steps.Pairwise fun a b => a.time_limit < b.time_limit)
    (hlo : 0 ≤ arrival) (_hhi : arrival ≤ 1440)
    (hmult : ∀ st ∈ steps, 0 ≤ calculatedDemand base st ∧
        calculatedDemand base st ≤ maxVolUpper base) :
    (arrival ≤ (steps.getLast hne).time_limit - 1 →
       ∃ cap : Int, ∃ seg : Fin steps.length → Bool,
         demandFeasible steps base arrival cap seg) ∧
    ((steps.getLast hne).time_limit ≤ arrival →
       ∀ (cap : Int) (seg : Fin steps.length → Bool),
         ¬ demandFeasible steps base arrival cap seg) := by
  constructor
  · intro hcov
    obtain ⟨i, hi1, hi2⟩ := exists_covering_segment steps hne arrival hlo hcov
    refine ⟨calculatedDemand base (steps.get i), fun j => decide (j = i), ?_, ?_, ?_⟩
    · exact hmult (steps.get i) (steps.get_mem i.val i.isLt)
    · intro j hj
      have : j = i := of_decide_eq_true hj
      subst this
      exact ⟨hi1, hi2, rfl⟩
    · rw [Finset.card_eq_one]
      refine ⟨i, ?_⟩
      ext j
      simp [Finset.mem_filter]
  · intro hbeyond cap seg hfeas
    obtain ⟨_hdom, hseg, hcard⟩ := hfeas
    obtain ⟨a, ha, -⟩ := exists_unique_true_seg hcard
    obtain ⟨-, h2, -⟩ := hseg a ha
    have hlast : (steps.get a).time_limit ≤ (steps.getLast hne).time_limit := by
      have halt : a.val < steps.length := a.isLt
      rw [List.getLast_eq_get]
      rcases Nat.lt_or_ge a.val (steps.length - 1) with hlt | hge
      · exact le_of_lt (time_limit_lt_of_lt hsort hlt)
      · have haeq : a = (⟨steps.length - 1, by omega⟩ : Fin steps.length) :=
          Fin.ext (show a.val = steps.length - 1 by omega)
        exact le_of_eq (congrArg (fun x => (steps.get x).time_limit) haeq)
    omega

/-- C8 witness: the amended coverage theorem applied to the single step
`(time_limit 10)` at arrival value 5, which lies inside `[0, 9]`. -/
theorem demand_steps_coverage_amended_witness :
    ∃ cap : Int, ∃ seg : Fin ([⟨10, 100⟩] : List DemandStep).length → Bool,
      demandFeasible [⟨10, 100⟩] 100 5 cap seg :=
  (demand_steps_coverage_amended [⟨10, 100⟩] 100 5 (by decide) (by decide)
    (by decide) (by decide) (by decide)).1 (by decide)

/-! ### C10: order insensitivity of DemandManager -/

instance : IsAntisymm DemandStep fun a b => a.time_limit < b.time_limit :=
  ⟨fun _ _ h1 h2 => absurd h2 (not_lt.mpr (le_of_lt h1))⟩

lemma sortedSteps_perm (steps : List DemandStep) : (sortedSteps steps).Perm steps :=
  List.perm_insertionSort stepLE steps

lemma sortedSteps_sorted (steps : List DemandStep) :
    (sortedSteps steps).Pairwise stepLE :=
  List.sorted_insertionSort stepLE steps

/-- With pairwise-distinct time limits, the sorted step list is strictly
sorted by `time_limit`. -/
lemma sortedSteps_strict {steps : List DemandStep}
    (hdist : steps.Pairwise fun a b => a.time_limit ≠ b.time_limit) :
    (sortedSteps steps).Pairwise fun a b => a.time_limit < b.time_limit := by
  have hd : (sortedSteps steps).Pairwise fun a b => a.time_limit ≠ b.time_limit :=
    ((sortedSteps_perm steps).pairwise_iff fun h => Ne.symm h).mpr hdist
  have hs := sortedSteps_sorted steps
  exact (hs.and hd).imp fun {a b} h => by
    obtain ⟨h1, h2⟩ := h
    unfold stepLE at h1
    omega

/-- C10: `DemandManager` is insensitive to input step order — for
pairwise-distinct time limits, any permutation of the input yields the same
sorted step sequence, and `get_max_demand_at_time` emits identical interval
bounds and cap values for every base demand. -/
theorem demand_manager_order_insensitive
    (l l' : List DemandStep) (hperm : l.Perm l')
    (hdist : l.Pairwise fun a b => a.time_limit ≠ b.time_limit) :
    sortedSteps l = sortedSteps l' ∧
    ∀ base : Int, demandManagerEmitted l base = demandManagerEmitted l' base := by
  have hdist' : l'.Pairwise fun a b => a.time_limit ≠ b.time_limit :=
    (hperm.pairwise_iff fun h => Ne.symm h).mp hdist
  have hp : (sortedSteps l).Perm (sortedSteps l') :=
    ((sortedSteps_perm l).trans hperm).trans (sortedSteps_perm l').symm
  have heq : sortedSteps l = sortedSteps l' :=
    List.eq_of_perm_of_sorted hp (sortedSteps_strict hdist) (sortedSteps_strict hdist')
  exact ⟨heq, fun base => by unfold demandManagerEmitted; rw [heq]⟩

/-- C10 witness: two permutations of the same two-step list produce identical
sorted sequences and emitted constraint data. -/
theorem demand_manager_order_insensitive_witness :
    sortedSteps [⟨20, 50⟩, ⟨10, 100⟩] = sortedSteps [⟨10, 100⟩, ⟨20, 50⟩] ∧
    ∀ base : Int,
      demandManagerEmitted [⟨20, 50⟩, ⟨10, 100⟩] base =
        demandManagerEmitted [⟨10, 100⟩, ⟨20, 50⟩] base :=
  demand_manager_order_insensitive _ _ (by decide) (by decide)

/-! ### entities.py -/

/-- `Brand` record. -/
structure Brand where
  id : String
  name : String
deriving DecidableEq, Repr

/-- `Vehicle` record.  Float costs and speeds are embedded as rationals. -/
structure Vehicle where
  id : Nat
  category : String
  cost_call : Rat
  cost_hour : Rat
  cost_km : Rat
  capacity : Int
  unloading_speed : Rat
deriving DecidableEq, Repr

/-- `Store` record (a `Location` subclass).  `demands` embeds the
`{brand_id: {time_slot: volume}}` dictionary as nested association lists. -/
structure Store where
  id : Nat
  name : String
  time_start : Int
  time_end : Int
  demands : List (String × List (Nat × Int))
  unloading_coeff : Rat
deriving DecidableEq, Repr

/-- `Warehouse` record (a `Location` subclass). -/
structure Warehouse where
  id : Nat
  name : String
  cost_per_volume : Rat
  fixed_staff_cost : Rat
  handling_speed : Rat
  produced_brands : List String
  initial_stock : List (String × Int)
  is_factory : Bool
deriving DecidableEq, Repr

/-- A `Location` is either a `Store` or a `Warehouse` (the two subclasses that
occur in `Scenario.all_locations`; `isinstance` checks branch on this). -/
inductive Location where
  | store : Store → Location
  | warehouse : Warehouse → Location
deriving DecidableEq, Repr

/-- The location's `id` attribute. -/
def Location.id : Location → Nat
  | .store st => st.id
  | .warehouse wh => wh.id

/-- `isinstance(loc, Warehouse)`. -/
def Location.isWarehouse : Location → Bool
  | .store _ => false
  | .warehouse _ => true

/-- `TransportNetwork`: the `[from_id][to_id]` matrices are embedded as their
lookup functions (distances are floats → rationals, times are ints). -/
structure TransportNetwork where
  distance_matrix : Nat → Nat → Rat
  time_matrix : Nat → Nat → Int

/-- `Scenario` record. -/
structure Scenario where
  vehicles : List Vehicle
  stores : List Store
  warehouses : List Warehouse
  network : TransportNetwork
  brands : List Brand
  bread_unit_cost : Rat

/-- `Scenario.all_locations = self.warehouses + self.stores`. -/
def Scenario.all_locations (s : Scenario) : List Location :=
  s.warehouses.map Location.warehouse ++ s.stores.map Location.store

/-! ### RouterPruner.py -/

/-- `DcPruningConfig`. -/
structure DcPruningConfig where
  enabled : Bool
  single_dominance : Bool
  composite_dominance : Bool
  distance_threshold : Rat
deriving DecidableEq, Repr

/-- Constructor parameters of `RoutePruner`. -/
structure PrunerParams where
  min_k : Nat
  max_k : Nat
  min_time_radius : Int
  dc_pruning : DcPruningConfig
deriving DecidableEq, Repr

/-- `start_i = i.time_start if isinstance(i, Store) else 0`. -/
def locWindowStart : Location → Int
  | .store st => st.time_start
  | .warehouse _ => 0

/-- `end_j = j.time_end if isinstance(j, Store) else 1440`. -/
def locWindowEnd : Location → Int
  | .store st => st.time_end
  | .warehouse _ => 1440

/-- `RoutePruner._is_time_feasible`: earliest departure from `i` (window open
for a store, 0 otherwise) plus travel time must not exceed `j`'s window close
(1440 for a non-store). -/
def is_time_feasible (s : Scenario) (i j : Location) : Bool :=
  locWindowStart i + s.network.time_matrix i.id j.id ≤ locWindowEnd j

/-- `frozenset(alt.produced_brands) >= frozenset(factory.produced_brands)`. -/
def brandsSuperset (sub sup : List String) : Bool :=
  sub.all fun b => sup.contains b

/-- `RoutePruner._is_single_dominated`. -/
def is_single_dominated (s : Scenario) (factory dc : Warehouse)
    (all_factories : List Warehouse) (dist_f_dc : Rat) (threshold : Rat) : Bool :=
  let max_alt_dist := dist_f_dc * (1 - threshold)
  all_factories.any fun alt =>
    alt.id ≠ factory.id &&
    brandsSuperset factory.produced_brands alt.produced_brands &&
    s.network.distance_matrix alt.id dc.id ≤ max_alt_dist

/-- Enumeration of ordered index pairs `(i, j)`, `i < j`, from
`for i, f1a in enumerate(closer): for f1b in closer[i+1:]`. -/
def anyOrderedPair : List Warehouse → (Warehouse → Warehouse → Bool) → Bool
  | [], _ => false
  | a :: rest, f => rest.any (f a) || anyOrderedPair rest f

/-- `RoutePruner._is_composite_dominated`. -/
def is_composite_dominated (s : Scenario) (factory dc : Warehouse)
    (all_factories : List Warehouse) (dist_f_dc : Rat) (threshold : Rat) : Bool :=
  let max_alt_dist := dist_f_dc * (1 - threshold)
  let closer := all_factories.filter fun alt =>
    alt.id ≠ factory.id && s.network.distance_matrix alt.id dc.id ≤ max_alt_dist
  anyOrderedPair closer fun f1a f1b =>
    factory.produced_brands.all fun b =>
      f1a.produced_brands.contains b || f1b.produced_brands.contains b

/-- `RoutePruner._compute_pruned_factory_dc_pairs`. -/
def compute_pruned_factory_dc_pairs (s : Scenario) (p : PrunerParams) : List (Nat × Nat) :=
  if !p.dc_pruning.enabled then []
  else
    let factories := s.warehouses.filter fun wh => wh.is_factory
    let dcs := s.warehouses.filter fun wh => !wh.is_factory
    if factories.isEmpty || dcs.isEmpty then []
    else
      dcs.bind fun dc =>
        factories.filterMap fun factory =>
          let dist_f_dc := s.network.distance_matrix factory.id dc.id
          let dom1 := p.dc_pruning.single_dominance &&
            is_single_dominated s factory dc factories dist_f_dc p.dc_pruning.distance_threshold
          let dom := dom1 || (p.dc_pruning.composite_dominance && !dom1 &&
            is_composite_dominated s factory dc factories dist_f_dc p.dc_pruning.distance_threshold)
          if dom then some (factory.id, dc.id) else none

/-- `store_ids = [s.id for s in self.scenario.stores]`. -/
def storeIds (s : Scenario) : List Nat :=
  s.stores.map fun st => st.id

/-- Lexicographic comparison of `(travel_time, store_id)` tuples, the order
used by `sorted` on the candidate list. -/
def lexLE (a b : Int × Nat) : Prop :=
  a.1 < b.1 ∨ (a.1 = b.1 ∧ a.2 ≤ b.2)

instance : DecidableRel lexLE := fun a b => by unfold lexLE; infer_instance

instance : IsTotal (Int × Nat) lexLE := ⟨fun a b => by unfold lexLE; omega⟩

instance : IsTrans (Int × Nat) lexLE := ⟨fun a b c hab hbc => by unfold lexLE at *; omega⟩

/-- The sorted candidate list
`sorted([(time_matrix[i][j], j) for j in store_ids if j != i_id])`. -/
def storeCandidates (s : Scenario) (i_id : Nat) : List (Int × Nat) :=
  (((storeIds s).filter fun j => j ≠ i_id).map fun j =>
    (s.network.time_matrix i_id j, j)).insertionSort lexLE

/-- The adaptive extension loop: append candidates beyond the first `min_k`
while fewer than `max_k` are selected and the candidate's travel time does not
exceed `min_time_radius`. -/
def extendSelected (max_k : Nat) (radius : Int) :
    List (Int × Nat) → List (Int × Nat) → List (Int × Nat)
  | selected, [] => selected
  | selected, c :: rest =>
      if max_k ≤ selected.length then selected
      else if radius < c.1 then selected
      else extendSelected max_k radius (selected ++ [c]) rest

/-- The `selected` list computed by `_build_adaptive_neighbor_cache` for one
store id: the `min_k` nearest candidates, adaptively extended when the
`min_k`-th nearest is still closer than `min_time_radius`. -/
def neighborSelected (s : Scenario) (p : PrunerParams) (i_id : Nat) : List (Int × Nat) :=
  match ((storeCandidates s i_id).take p.min_k).getLast? with
  | none => (storeCandidates s i_id).take p.min_k
  | some lastc =>
      if lastc.1 < p.min_time_radius then
        extendSelected p.max_k p.min_time_radius ((storeCandidates s i_id).take p.min_k)
          ((storeCandidates s i_id).drop p.min_k)
      else (storeCandidates s i_id).take p.min_k

/-- `cache[i_id] = {x[1] for x in selected}`. -/
def neighborSet (s : Scenario) (p : PrunerParams) (i_id : Nat) : Finset Nat :=
  ((neighborSelected s p i_id).map fun c => c.2).toFinset

/-- `self._neighbor_cache.get(i.id, set())`: the cache has exactly the store
ids as keys. -/
def neighborCacheLookup (s : Scenario) (p : PrunerParams) (loc_id : Nat) : Finset Nat :=
  if loc_id ∈ storeIds s then neighborSet s p loc_id else ∅

/-- `RoutePruner.get_allowed_pairs`: all ordered pairs of distinct locations
that are time feasible, not dominance-pruned, and either touch a warehouse or
connect a store to one of its cached neighbors. -/
def get_allowed_pairs (s : Scenario) (p : PrunerParams) : List (Nat × Nat) :=
  s.all_locations.bind fun i =>
    s.all_locations.filterMap fun j =>
      if i.id = j.id then none
      else if ¬ is_time_feasible s i j then none
      else if (i.id, j.id) ∈ compute_pruned_factory_dc_pairs s p then none
      else if i.isWarehouse || j.isWarehouse then some (i.id, j.id)
      else if j.id ∈ neighborCacheLookup s p i.id then some (i.id, j.id)
      else none

/-- C2: every ordered pair `(i, j)` returned by `RoutePruner.get_allowed_pairs`
comes from two locations of the scenario and satisfies
`start_i + travel_time(i, j) ≤ end_j`, where `start_i` is `i`'s window open
time for a store (0 otherwise) and `end_j` is `j`'s window close time for a
store (1440 otherwise). -/
theorem allowed_pairs_time_feasible (s : Scenario) (p : PrunerParams)
    (pr : Nat × Nat) (hmem : pr ∈ get_allowed_pairs s p) :
    ∃ i ∈ s.all_locations, ∃ j ∈ s.all_locations, pr = (i.id, j.id) ∧
      locWindowStart i + s.network.time_matrix i.id j.id ≤ locWindowEnd j := by
  rw [get_allowed_pairs, List.mem_bind] at hmem
  obtain ⟨i, hi, hj⟩ := hmem
  rw [List.mem_filterMap] at hj
  obtain ⟨j, hjmem, hcond⟩ := hj
  have hsplit : pr = (i.id, j.id) ∧ is_time_feasible s i j = true := by
    by_cases h1 : i.id = j.id
    · rw [if_pos h1] at hcond
      exact absurd hcond (by simp)
    · rw [if_neg h1] at hcond
      by_cases h2 : is_time_feasible s i j
      · refine ⟨?_, h2⟩
        rw [if_neg (not_not_intro h2)] at hcond
        split_ifs at hcond <;> simp_all
      · rw [if_pos h2] at hcond
        exact absurd hcond (by simp)
  obtain ⟨hpr, hft⟩ := hsplit
  refine ⟨i, hi, j, hjmem, hpr, ?_⟩
  rw [is_time_feasible] at hft
  exact of_decide_eq_true hft

/-- Example vehicle for concrete witnesses. -/
def exVehicle : Vehicle := ⟨0, "truck", 10, 1, 1, 150, 1⟩

/-- Example stores for concrete witnesses. -/
def exStore1 : Store := ⟨1, "s1", 540, 1020, [("A", [(0, 100)])], 1⟩

/-- Second example store. -/
def exStore2 : Store := ⟨2, "s2", 540, 1020, [], 1⟩

/-- Example factory warehouse. -/
def exWarehouse : Warehouse := ⟨0, "w", 1, 1, 10, ["A"], [("A", 50)], true⟩

/-- Example network: all distances 5, all travel times 10 (0 on the diagonal). -/
def exNetwork : TransportNetwork :=
  ⟨fun _ _ => 5, fun i j => if i = j then 0 else 10⟩

/-- Example scenario: one factory, two stores, one vehicle, one brand. -/
def exScenario : Scenario :=
  ⟨[exVehicle], [exStore1, exStore2], [exWarehouse], exNetwork, [⟨"A", "brandA"⟩], 1⟩

/-- Default pruner parameters (`min_k=70`, `max_k=150`, `min_time_radius=60`,
dc pruning enabled with threshold 0.25). -/
def exParams : PrunerParams := ⟨70, 150, 60, ⟨true, true, true, 1/4⟩⟩

/-- C2 witness: the pair (warehouse 0 → store 1) of the example scenario is
returned and the theorem yields its time-feasibility inequality. -/
theorem allowed_pairs_time_feasible_witness :
    ∃ i ∈ exScenario.all_locations, ∃ j ∈ exScenario.all_locations,
      ((0 : Nat), (1 : Nat)) = (i.id, j.id) ∧
      locWindowStart i + exScenario.network.time_matrix i.id j.id ≤ locWindowEnd j :=
  allowed_pairs_time_feasible exScenario exParams (0, 1) (by decide)

/-! ### C5: adaptive neighbor cache size -/

lemma extendSelected_eq_append (max_k : Nat) (radius : Int) :
    ∀ (rest sel : List (Int × Nat)),
      ∃ m, extendSelected max_k radius sel rest = sel ++ rest.take m
  | [], sel => ⟨0, by simp [extendSelected]⟩
  | c :: rest, sel => by
      unfold extendSelected
      by_cases h1 : max_k ≤ sel.length
      · exact ⟨0, by rw [if_pos h1]; simp⟩
      · rw [if_neg h1]
        by_cases h2 : radius < c.1
        · exact ⟨0, by rw [if_pos h2]; simp⟩
        · rw [if_neg h2]
          obtain ⟨m, hm⟩ := extendSelected_eq_append max_k radius rest (sel ++ [c])
          exact ⟨m + 1, by rw [hm, List.take_succ_cons, List.append_assoc]; rfl⟩

lemma extendSelected_length_le (max_k : Nat) (radius : Int) :
    ∀ (rest sel : List (Int × Nat)), sel.length ≤ max_k →
      (extendSelected max_k radius sel rest).length ≤ max_k
  | [], _, h => h
  | c :: rest, sel, h => by
      unfold extendSelected
      by_cases h1 : max_k ≤ sel.length
      · rw [if_pos h1]; exact h
      · rw [if_neg h1]
        by_cases h2 : radius < c.1
        · rw [if_pos h2]; exact h
        · rw [if_neg h2]
          exact extendSelected_length_le max_k radius rest (sel ++ [c])
            (by simp only [List.length_append, List.length_singleton]; omega)

lemma neighborSelected_of_getLast_none (s : Scenario) (p : PrunerParams) (i_id : Nat)
    (hl : ((storeCandidates s i_id).take p.min_k).getLast? = none) :
    neighborSelected s p i_id = (storeCandidates s i_id).take p.min_k := by
  unfold neighborSelected
  rw [hl]

lemma neighborSelected_of_getLast_some (s : Scenario) (p : PrunerParams) (i_id : Nat)
    (lastc : Int × Nat)
    (hl : ((storeCandidates s i_id).take p.min_k).getLast? = some lastc) :
    neighborSelected s p i_id =
      if lastc.1 < p.min_time_radius then
        extendSelected p.max_k p.min_time_radius ((storeCandidates s i_id).take p.min_k)
          ((storeCandidates s i_id).drop p.min_k)
      else (storeCandidates s i_id).take p.min_k := by
  unfold neighborSelected
  rw [hl]

/-- The selected neighbor list is always an initial segment of the sorted
candidate list, of length at least `min_k` elements' worth. -/
lemma neighborSelected_eq_take (s : Scenario) (p : PrunerParams) (i_id : Nat) :
    ∃ n, p.min_k ≤ n ∧ neighborSelected s p i_id = (storeCandidates s i_id).take n := by
  cases hl : ((storeCandidates s i_id).take p.min_k).getLast? with
  | none => exact ⟨p.min_k, le_refl _, neighborSelected_of_getLast_none s p i_id hl⟩
  | some lastc =>
      rw [neighborSelected_of_getLast_some s p i_id lastc hl]
      by_cases hc : lastc.1 < p.min_time_radius
      · rw [if_pos hc]
        obtain ⟨m, hm⟩ := extendSelected_eq_append p.max_k p.min_time_radius
          ((storeCandidates s i_id).drop p.min_k) ((storeCandidates s i_id).take p.min_k)
        refine ⟨p.min_k + m, Nat.le_add_right _ _, ?_⟩
        rw [hm, List.take_add]
      · rw [if_neg hc]
        exact ⟨p.min_k, le_refl _, rfl⟩

lemma neighborSelected_length_le (s : Scenario) (p : PrunerParams) (i_id : Nat)
    (hk : p.min_k ≤ p.max_k) :
    (neighborSelected s p i_id).length ≤ p.max_k := by
  have htake : ((storeCandidates s i_id).take p.min_k).length ≤ p.max_k := by
    rw [List.length_take]
    exact le_trans (min_le_left _ _) hk
  cases hl : ((storeCandidates s i_id).take p.min_k).getLast? with
  | none => rw [neighborSelected_of_getLast_none s p i_id hl]; exact htake
  | some lastc =>
      rw [neighborSelected_of_getLast_some s p i_id lastc hl]
      by_cases hc : lastc.1 < p.min_time_radius
      · rw [if_pos hc]
        exact extendSelected_length_le _ _ _ _ htake
      · rw [if_neg hc]
        exact htake

lemma length_filter_ne (a : Nat) :
    ∀ (l : List Nat), l.Nodup → a ∈ l →
      (l.filter fun j => j ≠ a).length = l.length - 1
  | [], _, h => absurd h (List.not_mem_nil a)
  | b :: l, hnd, hmem => by
      rw [List.nodup_cons] at hnd
      obtain ⟨hbl, hndl⟩ := hnd
      by_cases hba : b = a
      · subst hba
        have hfl : l.filter (fun j => j ≠ b) = l :=
          List.filter_eq_self.mpr fun x hx => decide_eq_true fun hxb => hbl (hxb ▸ hx)
        simp [List.filter_cons, hfl]
        intro a ha heq
        exact hbl (heq ▸ ha)
      · have hal : a ∈ l := by
          rcases List.mem_cons.mp hmem with h | h
          · exact absurd h.symm hba
          · exact h
        have hlen : 1 ≤ l.length := List.length_pos.mpr (List.ne_nil_of_mem hal)
        have ih := length_filter_ne a l hndl hal
        simp only [List.filter_cons, decide_eq_true hba, if_pos]
        simp only [List.length_cons, ih]
        omega

lemma storeCandidates_length (s : Scenario) (i_id : Nat)
    (hnodup : (storeIds s).Nodup) (hmem : i_id ∈ storeIds s) :
    (storeCandidates s i_id).length = s.stores.length - 1 := by
  unfold storeCandidates
  rw [(List.perm_insertionSort lexLE _).length_eq, List.length_map,
    length_filter_ne i_id (storeIds s) hnodup hmem]
  simp [storeIds]

/-- The ids occurring in the sorted candidate list are distinct. -/
lemma storeCandidates_ids_nodup (s : Scenario) (i_id : Nat)
    (hnodup : (storeIds s).Nodup) :
    ((storeCandidates s i_id).map fun c => c.2).Nodup := by
  have h1 : (((storeIds s).filter fun j => j ≠ i_id)).Nodup := hnodup.filter _
  have h2 : (((((storeIds s).filter fun j => j ≠ i_id)).map fun j =>
      (s.network.time_matrix i_id j, j)).map fun c : Int × Nat => c.2) =
      ((storeIds s).filter fun j => j ≠ i_id) := by
    rw [List.map_map]
    exact List.map_id _
  have hperm := (List.perm_insertionSort lexLE ((((storeIds s).filter fun j => j ≠ i_id)).map fun j =>
      (s.network.time_matrix i_id j, j))).map fun c : Int × Nat => c.2
  rw [h2] at hperm
  exact hperm.nodup_iff.mpr h1

lemma neighborSet_card_eq_length (s : Scenario) (p : PrunerParams) (i_id : Nat)
    (hnodup : (storeIds s).Nodup) :
    (neighborSet s p i_id).card = (neighborSelected s p i_id).length := by
  obtain ⟨n, -, hn⟩ := neighborSelected_eq_take s p i_id
  have hnd : ((neighborSelected s p i_id).map fun c => c.2).Nodup := by
    rw [hn, List.map_take]
    exact (List.take_sublist _ _).nodup (storeCandidates_ids_nodup s i_id hnodup)
  rw [neighborSet, List.toFinset_card_of_nodup hnd, List.length_map]

/-- C5: for every store `i` of a scenario with `N` stores (distinct store ids,
`min_k ≤ max_k`), the adaptive neighbor set has between `min(min_k, N-1)` and
`max_k` elements, and whenever the `min_k`-th nearest store's travel time from
`i` is at least `min_time_radius`, it has exactly `min_k` elements. -/
theorem adaptive_neighbor_size (s : Scenario) (p : PrunerParams) (st : Store)
    (hk : p.min_k ≤ p.max_k) (hnodup : (storeIds s).Nodup) (hst : st ∈ s.stores) :
    (min p.min_k (s.stores.length - 1) ≤ (neighborSet s p st.id).card ∧
      (neighborSet s p st.id).card ≤ p.max_k) ∧
    ∀ c : Int × Nat, 0 < p.min_k →
      (storeCandidates s st.id).get? (p.min_k - 1) = some c →
      p.min_time_radius ≤ c.1 →
      (neighborSet s p st.id).card = p.min_k := by
  have hmem : st.id ∈ storeIds s := List.mem_map.mpr ⟨st, hst, rfl⟩
  have hcard := neighborSet_card_eq_length s p st.id hnodup
  have hclen := storeCandidates_length s st.id hnodup hmem
  refine ⟨⟨?_, ?_⟩, ?_⟩
  · obtain ⟨n, hn1, hn2⟩ := neighborSelected_eq_take s p st.id
    rw [hcard, hn2, List.length_take, hclen]
    omega
  · rw [hcard]
    exact neighborSelected_length_le s p st.id hk
  · intro c hpos hget hrad
    have hlt : p.min_k - 1 < (storeCandidates s st.id).length := by
      by_contra hge
      rw [List.get?_eq_none.mpr (by omega)] at hget
      exact absurd hget (by simp)
    have hlen_take : ((storeCandidates s st.id).take p.min_k).length = p.min_k := by
      rw [List.length_take]
      omega
    have hlast : ((storeCandidates s st.id).take p.min_k).getLast? = some c := by
      rw [List.getLast?_eq_get?, hlen_take, List.get?_take (by omega), hget]
    rw [hcard, neighborSelected_of_getLast_some s p st.id c hlast, if_neg (by omega)]
    exact hlen_take

/-- C5 witness: in the example scenario with `min_k = 1`, the first store's
single nearest neighbor (travel time 10 < radius 60 never reached, using the
nearest-candidate hypothesis at index 0 with a large radius parameter). -/
theorem adaptive_neighbor_size_witness :
    (min 1 (exScenario.stores.length - 1) ≤
        (neighborSet exScenario ⟨1, 3, 5, ⟨true, true, true, 1/4⟩⟩ exStore1.id).card ∧
      (neighborSet exScenario ⟨1, 3, 5, ⟨true, true, true, 1/4⟩⟩ exStore1.id).card ≤ 3) ∧
    ∀ c : Int × Nat, 0 < (1 : Nat) →
      (storeCandidates exScenario exStore1.id).get? (1 - 1) = some c →
      (5 : Int) ≤ c.1 →
      (neighborSet exScenario ⟨1, 3, 5, ⟨true, true, true, 1/4⟩⟩ exStore1.id).card = 1 :=
  adaptive_neighbor_size exScenario ⟨1, 3, 5, ⟨true, true, true, 1/4⟩⟩ exStore1
    (by decide) (by decide) (by decide)

/-! ### var_manager.py -/

/-- Python `dict[key]`: raises `KeyError` when the key was never registered. -/
def pyGetItem {κ α : Type} [BEq κ] (d : List (κ × α)) (k : κ) : Except String α :=
  match List.lookup k d with
  | some v => Except.ok v
  | none => Except.error "KeyError"

/-- Python `dict.get(key)` (no default argument): returns `None` instead of
raising when the key is missing. -/
def pyGet {κ α : Type} [BEq κ] (d : List (κ × α)) (k : κ) : Option α :=
  List.lookup k d

/-- The variable registries of `VarManager`.  CP-SAT variable objects are
opaque; they are embedded as `Nat` handles. -/
structure VarManagerState where
  x : List ((Nat × Nat × Nat) × Nat)
  arrival_times : List ((Nat × Nat) × Nat)
  load_arriving : List ((Nat × Nat) × Nat)
  load_at_point : List ((Nat × Nat) × Nat)
  delivered_vol : List ((Nat × Nat × String) × Nat)
  pickup_vol : List ((Nat × Nat × String) × Nat)
  wh_active : List (Nat × Nat)
  wh_max_vol : List (Nat × Nat)
  wh_stock_change_per_visit : List ((Nat × String × Nat) × Nat)
  wh_visit_intervals : List ((Nat × Nat) × Nat)
  wh_visit_active_flags : List ((Nat × Nat) × Nat)
  vehicle_used : List (Nat × Nat)
  total_dist : List (Nat × Nat)
  total_time : List (Nat × Nat)
  shift_start : List (Nat × Nat)
  shift_end : List (Nat × Nat)

/-- `VarManager._init_all_vars` + `add_load_arriving_vars`: the sets of keys
registered in each dictionary (variable handles themselves are opaque). -/
def initVarManager (s : Scenario) (p : PrunerParams) : VarManagerState :=
  { x := s.vehicles.bind fun v =>
      (get_allowed_pairs s p).map fun pr => ((v.id, pr.1, pr.2), 0)
    arrival_times := s.vehicles.bind fun v =>
      s.all_locations.map fun loc => ((v.id, loc.id), 0)
    load_arriving := s.vehicles.bind fun v =>
      s.all_locations.map fun loc => ((v.id, loc.id), 0)
    load_at_point := s.vehicles.bind fun v =>
      s.all_locations.map fun loc => ((v.id, loc.id), 0)
    delivered_vol := s.vehicles.bind fun v => s.all_locations.bind fun loc =>
      s.brands.map fun b => ((v.id, loc.id, b.id), 0)
    pickup_vol := s.vehicles.bind fun v => s.all_locations.bind fun loc =>
      s.brands.map fun b => ((v.id, loc.id, b.id), 0)
    wh_active := s.warehouses.map fun wh => (wh.id, 0)
    wh_max_vol := s.warehouses.map fun wh => (wh.id, 0)
    wh_stock_change_per_visit := s.warehouses.bind fun wh => s.vehicles.bind fun v =>
      s.brands.map fun b => ((wh.id, b.id, v.id), 0)
    wh_visit_intervals := s.warehouses.bind fun wh =>
      s.vehicles.map fun v => ((wh.id, v.id), 0)
    wh_visit_active_flags := s.warehouses.bind fun wh =>
      s.vehicles.map fun v => ((wh.id, v.id), 0)
    vehicle_used := s.vehicles.map fun v => (v.id, 0)
    total_dist := s.vehicles.map fun v => (v.id, 0)
    total_time := s.vehicles.map fun v => (v.id, 0)
    shift_start := s.vehicles.map fun v => (v.id, 0)
    shift_end := s.vehicles.map fun v => (v.id, 0) }

/-- `get_routing_var` uses `self.x.get(...)` — `Optional`, no exception. -/
def VarManagerState.get_routing_var (vm : VarManagerState) (v_id i j : Nat) : Option Nat :=
  pyGet vm.x (v_id, i, j)

/-- `get_arrival_var` uses `self.arrival_times[...]` — raises on a missing key. -/
def VarManagerState.get_arrival_var (vm : VarManagerState) (v_id loc_id : Nat) : Except String Nat :=
  pyGetItem vm.arrival_times (v_id, loc_id)

/-- `get_load_arriving_var`. -/
def VarManagerState.get_load_arriving_var (vm : VarManagerState) (v_id loc_id : Nat) : Except String Nat :=
  pyGetItem vm.load_arriving (v_id, loc_id)

/-- `get_load_at_point_var`. -/
def VarManagerState.get_load_at_point_var (vm : VarManagerState) (v_id loc_id : Nat) : Except String Nat :=
  pyGetItem vm.load_at_point (v_id, loc_id)

/-- `get_delivery_var`. -/
def VarManagerState.get_delivery_var (vm : VarManagerState) (v_id loc_id : Nat) (brand_id : String) : Except String Nat :=
  pyGetItem vm.delivered_vol (v_id, loc_id, brand_id)

/-- `get_pickup_var`. -/
def VarManagerState.get_pickup_var (vm : VarManagerState) (v_id loc_id : Nat) (brand_id : String) : Except String Nat :=
  pyGetItem vm.pickup_vol (v_id, loc_id, brand_id)

/-- `get_wh_active_var`. -/
def VarManagerState.get_wh_active_var (vm : VarManagerState) (wh_id : Nat) : Except String Nat :=
  pyGetItem vm.wh_active wh_id

/-- `get_wh_max_vol_var`. -/
def VarManagerState.get_wh_max_vol_var (vm : VarManagerState) (wh_id : Nat) : Except String Nat :=
  pyGetItem vm.wh_max_vol wh_id

/-- `get_wh_stock_change_per_visit_var`. -/
def VarManagerState.get_wh_stock_change_per_visit_var (vm : VarManagerState) (wh_id : Nat) (brand_id : String) (v_id : Nat) : Except String Nat :=
  pyGetItem vm.wh_stock_change_per_visit (wh_id, brand_id, v_id)

/-- `get_wh_visit_interval_var`. -/
def VarManagerState.get_wh_visit_interval_var (vm : VarManagerState) (wh_id v_id : Nat) : Except String Nat :=
  pyGetItem vm.wh_visit_intervals (wh_id, v_id)

/-- `get_wh_visit_active_flag`. -/
def VarManagerState.get_wh_visit_active_flag (vm : VarManagerState) (wh_id v_id : Nat) : Except String Nat :=
  pyGetItem vm.wh_visit_active_flags (wh_id, v_id)

/-- `get_vehicle_used_var`. -/
def VarManagerState.get_vehicle_used_var (vm : VarManagerState) (v_id : Nat) : Except String Nat :=
  pyGetItem vm.vehicle_used v_id

/-- `get_total_dist_var`. -/
def VarManagerState.get_total_dist_var (vm : VarManagerState) (v_id : Nat) : Except String Nat :=
  pyGetItem vm.total_dist v_id

/-- `get_total_time_var`. -/
def VarManagerState.get_total_time_var (vm : VarManagerState) (v_id : Nat) : Except String Nat :=
  pyGetItem vm.total_time v_id

/-- `get_shift_start_var`. -/
def VarManagerState.get_shift_start_var (vm : VarManagerState) (v_id : Nat) : Except String Nat :=
  pyGetItem vm.shift_start v_id

/-- `get_shift_end_var`. -/
def VarManagerState.get_shift_end_var (vm : VarManagerState) (v_id : Nat) : Except String Nat :=
  pyGetItem vm.shift_end v_id

lemma lookup_eq_none_of_forall {κ α : Type} [BEq κ] [LawfulBEq κ] :
    ∀ (l : List (κ × α)) (k : κ), (∀ e ∈ l, e.1 ≠ k) → List.lookup k l = none
  | [], _, _ => rfl
  | (k', v) :: l, k, h => by
      have hne : (k == k') = false := by
        rw [beq_eq_false_iff_ne]
        exact fun he => h (k', v) (List.mem_cons_self _ _) (by simp [he.symm])
      simp only [List.lookup, hne]
      exact lookup_eq_none_of_forall l k fun e he => h e (List.mem_cons_of_mem _ he)

lemma pyGetItem_error {κ α : Type} [BEq κ] {d : List (κ × α)} {k : κ}
    (h : List.lookup k d = none) : pyGetItem d k = Except.error "KeyError" := by
  unfold pyGetItem
  rw [h]

/-- C7 counterexample: on the example scenario, querying `get_routing_var` for
the arc `(5, 6)` — never registered, since it is not among the allowed pairs —
returns the Python default `None` instead of raising an error (the claim says
every accessor, including `get_routing_var`, raises). -/
theorem get_routing_var_returns_none :
    (initVarManager exScenario exParams).get_routing_var 0 5 6 = none := by decide

/-- C7 amended: every `VarManager` accessor except `get_routing_var` raises
`KeyError` when queried for a variable that was never registered, while
`get_routing_var` — which uses `dict.get` — returns `None` (not an error) for
every arc `(i, j)` outside the candidate allowed-pair set. -/
theorem varmanager_accessor_failure_modes :
    (∀ (s : Scenario) (p : PrunerParams) (v i j : Nat),
        (i, j) ∉ get_allowed_pairs s p →
        (initVarManager s p).get_routing_var v i j = none) ∧
    (∀ (vm : VarManagerState) (v l : Nat) (b : String) (w : Nat)
        (ha : List.lookup (v, l) vm.arrival_times = none)
        (hla : List.lookup (v, l) vm.load_arriving = none)
        (hlp : List.lookup (v, l) vm.load_at_point = none)
        (hd : List.lookup (v, l, b) vm.delivered_vol = none)
        (hp : List.lookup (v, l, b) vm.pickup_vol = none)
        (hwa : List.lookup w vm.wh_active = none)
        (hwm : List.lookup w vm.wh_max_vol = none)
        (hws : List.lookup (w, b, v) vm.wh_stock_change_per_visit = none)
        (hwi : List.lookup (w, v) vm.wh_visit_intervals = none)
        (hwf : List.lookup (w, v) vm.wh_visit_active_flags = none)
        (hvu : List.lookup v vm.vehicle_used = none)
        (htd : List.lookup v vm.total_dist = none)
        (htt : List.lookup v vm.total_time = none)
        (hss : List.lookup v vm.shift_start = none)
        (hse : List.lookup v vm.shift_end = none),
        vm.get_arrival_var v l = Except.error "KeyError" ∧
        vm.get_load_arriving_var v l = Except.error "KeyError" ∧
        vm.get_load_at_point_var v l = Except.error "KeyError" ∧
        vm.get_delivery_var v l b = Except.error "KeyError" ∧
        vm.get_pickup_var v l b = Except.error "KeyError" ∧
        vm.get_wh_active_var w = Except.error "KeyError" ∧
        vm.get_wh_max_vol_var w = Except.error "KeyError" ∧
        vm.get_wh_stock_change_per_visit_var w b v = Except.error "KeyError" ∧
        vm.get_wh_visit_interval_var w v = Except.error "KeyError" ∧
        vm.get_wh_visit_active_flag w v = Except.error "KeyError" ∧
        vm.get_vehicle_used_var v = Except.error "KeyError" ∧
        vm.get_total_dist_var v = Except.error "KeyError" ∧
        vm.get_total_time_var v = Except.error "KeyError" ∧
        vm.get_shift_start_var v = Except.error "KeyError" ∧
        vm.get_shift_end_var v = Except.error "KeyError") := by
  constructor
  · intro s p v i j hnot
    unfold VarManagerState.get_routing_var pyGet initVarManager
    apply lookup_eq_none_of_forall
    intro e he hkey
    simp only [List.mem_bind, List.mem_map] at he
    obtain ⟨veh, -, pr, hpr, hepr⟩ := he
    apply hnot
    have h1 : e.1 = (veh.id, pr.1, pr.2) := by rw [← hepr]
    rw [h1] at hkey
    have h2 : pr.1 = i ∧ pr.2 = j := by
      injection hkey with _ hrest
      injection hrest with hi hj
      exact ⟨hi, hj⟩
    have : pr = (i, j) := Prod.ext h2.1 h2.2
    rwa [this] at hpr
  · intro vm v l b w ha hla hlp hd hp hwa hwm hws hwi hwf hvu htd htt hss hse
    exact ⟨pyGetItem_error ha, pyGetItem_error hla, pyGetItem_error hlp, pyGetItem_error hd,
      pyGetItem_error hp, pyGetItem_error hwa, pyGetItem_error hwm, pyGetItem_error hws,
      pyGetItem_error hwi, pyGetItem_error hwf, pyGetItem_error hvu, pyGetItem_error htd,
      pyGetItem_error htt, pyGetItem_error hss, pyGetItem_error hse⟩

/-- Empty variable registry used by the C7 witness. -/
def emptyVarManager : VarManagerState :=
  ⟨[], [], [], [], [], [], [], [], [], [], [], [], [], [], [], []⟩

/-- C7 witness: the amended theorem applied to the example scenario (arc
`(5, 6)` is outside the candidate set) and to the empty registry (every lookup
misses, every bracket accessor raises). -/
theorem varmanager_accessor_failure_modes_witness :
    (initVarManager exScenario exParams).get_routing_var 1 5 6 = none ∧
    emptyVarManager.get_arrival_var 0 0 = Except.error "KeyError" ∧
    emptyVarManager.get_wh_active_var 0 = Except.error "KeyError" :=
  ⟨varmanager_accessor_failure_modes.1 exScenario exParams 1 5 6 (by decide),
    (varmanager_accessor_failure_modes.2 emptyVarManager 0 0 "A" 0 rfl rfl rfl rfl rfl rfl rfl
      rfl rfl rfl rfl rfl rfl rfl rfl).1,
    (varmanager_accessor_failure_modes.2 emptyVarManager 0 0 "A" 0 rfl rfl rfl rfl rfl rfl rfl
      rfl rfl rfl rfl rfl rfl rfl rfl).2.2.2.2.2.1⟩

/-! ### constraints.py: service time (C6) -/

/-- A service-time expression emitted by `_get_service_time_expr`: either a
constant (`model.NewConstant(0)`) or the integer division
`model.NewDiv(total_vol_at_loc, divisor)` of the fresh total-volume variable —
constrained to the sum of delivered plus picked-up volumes over all brands at
the location — by a constant integer divisor. -/
inductive ServiceTimeExpr where
  | const (c : Int)
  | divTotalVol (divisor : Int)
deriving DecidableEq, Repr

/-- Python `int(q)` on a non-integer number: truncation toward zero. -/
def pyInt (q : Rat) : Int := if 0 ≤ q then ⌊q⌋ else ⌈q⌉

/-- `ConstraintFactory._get_service_time_expr`.  The guard threshold `1e-6` is
the rational `1/1000000`; a `Location` is always a `Store` or a `Warehouse`
(the function's final `return NewConstant(0)` line is unreachable for the
locations of `Scenario.all_locations`). -/
def get_service_time_expr (v : Vehicle) (loc : Location) : ServiceTimeExpr :=
  match loc with
  | .store _ =>
      if v.unloading_speed < 1 / 1000000 then ServiceTimeExpr.const 0
      else ServiceTimeExpr.divTotalVol (pyInt v.unloading_speed)
  | .warehouse wh =>
      if wh.handling_speed < 1 / 1000000 then ServiceTimeExpr.const 0
      else ServiceTimeExpr.divTotalVol (pyInt wh.handling_speed)

/-- C6: with unloading speed `0.5` — above the `1e-6` guard but below 1 unit
per time — the emitted store service-time expression is a division by
`int(0.5) = 0`: the degenerate-speed guard does not fire and the divisor is
zero, contradicting the claim that sub-1 throughput yields the constant 0 and
that the divisor of an emitted division is never zero. -/
theorem service_time_zero_divisor :
    get_service_time_expr ⟨0, "truck", 10, 1, 1, 150, 1 / 2⟩ (Location.store exStore1) =
      ServiceTimeExpr.divTotalVol 0 := by
  simp only [get_service_time_expr]
  rw [if_neg (by norm_num)]
  have hfl : pyInt ((⟨0, "truck", 10, 1, 1, 150, 1 / 2⟩ : Vehicle).unloading_speed) = 0 := by
    unfold pyInt
    rw [if_pos (by norm_num)]
    rw [Int.floor_eq_zero_iff]
    constructor <;> norm_num
  rw [hfl]

/-! ### constraints.py: warehouse pickup ban (C9) -/

/-- The `(vehicle_id, warehouse_id, brand_id)` triples whose pickup variables
`_add_warehouse_constraints` fixes to zero: for every warehouse, every brand
whose id is not in `produced_brands`, every vehicle
(`model.Add(get_pickup_var(v, wh, b) == 0)`). -/
def warehousePickupBanKeys (s : Scenario) : List (Nat × Nat × String) :=
  s.warehouses.bind fun wh =>
    s.brands.bind fun b =>
      if b.id ∈ wh.produced_brands then []
      else s.vehicles.map fun v => (v.id, wh.id, b.id)

/-- An assignment of the pickup-volume variables satisfies the emitted
pickup-ban equations. -/
def pickupBanSatisfied (s : Scenario) (pickup : Nat → Nat → String → Int) : Prop :=
  ∀ k ∈ warehousePickupBanKeys s, pickup k.1 k.2.1 k.2.2 = 0

instance (s : Scenario) (pickup : Nat → Nat → String → Int) :
    Decidable (pickupBanSatisfied s pickup) := by
  unfold pickupBanSatisfied; infer_instance

/-- C9: in every assignment satisfying the constraints emitted by
`_add_warehouse_constraints`, the pickup volume of any brand a warehouse does
not produce is zero for every vehicle; at a warehouse with an empty
produced-brands list no brand can be picked up at all. -/
theorem warehouse_pickup_ban (s : Scenario) (pickup : Nat → Nat → String → Int)
    (hfeas : pickupBanSatisfied s pickup) :
    (∀ wh ∈ s.warehouses, ∀ b ∈ s.brands, b.id ∉ wh.produced_brands →
       ∀ v ∈ s.vehicles, pickup v.id wh.id b.id = 0) ∧
    (∀ wh ∈ s.warehouses, wh.produced_brands = [] →
       ∀ b ∈ s.brands, ∀ v ∈ s.vehicles, pickup v.id wh.id b.id = 0) := by
  have hkey : ∀ wh ∈ s.warehouses, ∀ b ∈ s.brands, b.id ∉ wh.produced_brands →
      ∀ v ∈ s.vehicles, (v.id, wh.id, b.id) ∈ warehousePickupBanKeys s := by
    intro wh hwh b hb hnb v hv
    rw [warehousePickupBanKeys, List.mem_bind]
    refine ⟨wh, hwh, ?_⟩
    rw [List.mem_bind]
    refine ⟨b, hb, ?_⟩
    rw [if_neg hnb]
    exact List.mem_map.mpr ⟨v, hv, rfl⟩
  constructor
  · intro wh hwh b hb hnb v hv
    exact hfeas _ (hkey wh hwh b hb hnb v hv)
  · intro wh hwh hempty b hb v hv
    exact hfeas _ (hkey wh hwh b hb (by rw [hempty]; exact List.not_mem_nil _) v hv)

/-- Non-factory distribution center with an empty produced-brands list. -/
def exDc : Warehouse := ⟨3, "dc", 1, 1, 10, [], [], false⟩

/-- Example scenario with a factory and a non-producing distribution center. -/
def exScenarioDC : Scenario :=
  ⟨[exVehicle], [exStore1], [exWarehouse, exDc], exNetwork, [⟨"A", "brandA"⟩], 1⟩

/-- C9 witness: the all-zero pickup assignment satisfies the ban, and the
theorem yields both conclusions on the example scenario. -/
theorem warehouse_pickup_ban_witness :
    (∀ wh ∈ exScenarioDC.warehouses, ∀ b ∈ exScenarioDC.brands,
       b.id ∉ wh.produced_brands → ∀ v ∈ exScenarioDC.vehicles,
       (fun _ _ _ => (0 : Int)) v.id wh.id b.id = 0) ∧
    (∀ wh ∈ exScenarioDC.warehouses, wh.produced_brands = [] →
       ∀ b ∈ exScenarioDC.brands, ∀ v ∈ exScenarioDC.vehicles,
       (fun _ _ _ => (0 : Int)) v.id wh.id b.id = 0) :=
  warehouse_pickup_ban exScenarioDC (fun _ _ _ => 0) (by decide)

/-! ### constraints.py: demand satisfaction (C4) -/

/-- `AddMinEquality(e, xs)`: `e` equals the minimum of the listed values. -/
def isMinOf (e : Int) (xs : List Int) : Prop :=
  (∀ x ∈ xs, e ≤ x) ∧ e ∈ xs

instance (e : Int) (xs : List Int) : Decidable (isMinOf e xs) := by
  unfold isMinOf; infer_instance

/-- Generalisation of `segLower` threading an explicit lower limit for the
first remaining segment (used to reason about `capValueAtAux`). -/
def segLowerFrom (lower : Int) (steps : List DemandStep) (i : Fin steps.length) : Int :=
  if _h : i.val = 0 then lower
  else (steps.get ⟨i.val - 1, Nat.lt_of_le_of_lt (Nat.sub_le _ _) i.isLt⟩).time_limit

lemma segLower_eq_segLowerFrom (steps : List DemandStep) (i : Fin steps.length) :
    segLower steps i = segLowerFrom 0 steps i := rfl

/-- `capValueAtAux` returns the cap of the segment whose interval contains `t`
(sorted steps). -/
lemma capValueAtAux_finds (base t : Int) :
    ∀ (steps : List DemandStep) (lower : Int) (i : Fin steps.length),
      (steps.Pairwise fun a b => a.time_limit < b.time_limit) →
      segLowerFrom lower steps i ≤ t →
      t ≤ (steps.get i).time_limit - 1 →
      capValueAtAux base t lower steps = some (calculatedDemand base (steps.get i))
  | [], _, i, _, _, _ => absurd i.isLt (by simp)
  | st :: rest, lower, ⟨0, _⟩, _hsort, hlo, hhi => by
      unfold capValueAtAux
      rw [if_pos ⟨by simpa [segLowerFrom] using hlo, by simpa using hhi⟩]
      rfl
  | st :: rest, lower, ⟨k + 1, hk1⟩, hsort, hlo, hhi => by
      have hrest : rest.Pairwise fun a b => a.time_limit < b.time_limit :=
        (List.pairwise_cons.mp hsort).2
      have hk : k < rest.length := by
        have := hk1
        simp only [List.length_cons] at this
        omega
      have hget : segLowerFrom lower (st :: rest) ⟨k + 1, hk1⟩ =
          ((st :: rest).get ⟨k, Nat.lt_succ_of_lt hk⟩).time_limit := by
        unfold segLowerFrom
        rw [dif_neg (Nat.succ_ne_zero _)]
        rfl
      rw [hget] at hlo
      have hstle : st.time_limit ≤ ((st :: rest).get ⟨k, Nat.lt_succ_of_lt hk⟩).time_limit := by
        rcases Nat.eq_zero_or_pos k with hz | hpos
        · subst hz
          exact le_refl _
        · exact le_of_lt (time_limit_lt_of_lt hsort
            (i := ⟨0, Nat.succ_pos _⟩) (j := ⟨k, Nat.lt_succ_of_lt hk⟩) hpos)
      unfold capValueAtAux
      rw [if_neg (by omega : ¬ (lower ≤ t ∧ t ≤ st.time_limit - 1))]
      have hrec := capValueAtAux_finds base t rest st.time_limit ⟨k, hk⟩ hrest ?_ ?_
      · rw [hrec]
        rfl
      · match k, hk, hlo with
        | 0, hk, hlo =>
            unfold segLowerFrom
            rw [dif_pos rfl]
            exact hlo
        | k' + 1, hk, hlo =>
            unfold segLowerFrom
            rw [dif_neg (Nat.succ_ne_zero _)]
            exact hlo
      · exact hhi

/-- The demand-cap function evaluated where the active segment sits: in a
feasible assignment of the demand-manager constraints over sorted steps, the
cap variable's value is exactly `capValueAt` at the arrival value. -/
lemma capValueAt_of_feasible {steps : List DemandStep} {base arrival cap : Int}
    {seg : Fin steps.length → Bool}
    (hsort : steps.Pairwise fun a b => a.time_limit < b.time_limit)
    (hfeas : demandFeasible steps base arrival cap seg) :
    capValueAt steps base arrival = some cap := by
  obtain ⟨-, hseg, hcard⟩ := hfeas
  obtain ⟨i, hi, -⟩ := exists_unique_true_seg hcard
  obtain ⟨h1, h2, h3⟩ := hseg i hi
  rw [capValueAt, capValueAtAux_finds base arrival steps 0 i hsort
    (by rwa [← segLower_eq_segLowerFrom]) h2, h3]

/-- Assignment of the variables involved in
`_add_demand_satisfaction_constraints` for one `(store, brand)` pair, indexed
by vehicle id. -/
structure DemandSatAssign where
  net : Int
  d : Nat → Int
  p : Nat → Int
  arrival : Nat → Int
  isDel : Nat → Bool
  arrIfDel : Nat → Int
  isAny : Bool
  earliest : Int
  cap : Int
  seg : Nat → Bool

/-- The constraints emitted by `_add_demand_satisfaction_constraints` for one
`(store, brand)` pair, together with the domains of the participating
variables, satisfied by the assignment `A`:

1. `total_net == sum(delivered - pickup)`;
2. delivering flags (`is_del → delivery > 0`, `¬is_del → delivery == 0`),
   masked arrival times (`arrival_if_delivering` equals the vehicle's arrival
   when delivering, 1440 otherwise);
3. any-delivery indicator and `AddMinEquality(earliest, masked arrivals)` when
   vehicles exist, else `is_any == 0` and `earliest == 0`;
4. the `DemandManager.get_max_demand_at_time` constraints on
   `(earliest, cap)`;
5. `net <= cap` when any delivery occurs, `net <= 0` otherwise. -/
def demandSatConstraints (vehicles : List Vehicle) (steps : List DemandStep)
    (base : Int) (A : DemandSatAssign) : Prop :=
  (∀ v ∈ vehicles,
      (0 ≤ A.d v.id ∧ A.d v.id ≤ v.capacity) ∧
      (0 ≤ A.p v.id ∧ A.p v.id ≤ v.capacity) ∧
      (0 ≤ A.arrival v.id ∧ A.arrival v.id ≤ 1440) ∧
      (0 ≤ A.arrIfDel v.id ∧ A.arrIfDel v.id ≤ 1440)) ∧
  (-((vehicles.map fun v => v.capacity).sum) ≤ A.net ∧
      A.net ≤ (vehicles.map fun v => v.capacity).sum) ∧
  (0 ≤ A.earliest ∧ A.earliest ≤ 1440) ∧
  A.net = (vehicles.map fun v => A.d v.id - A.p v.id).sum ∧
  (∀ v ∈ vehicles,
      (A.isDel v.id = true → 0 < A.d v.id) ∧
      (A.isDel v.id = false → A.d v.id = 0) ∧
      (A.isDel v.id = true → A.arrIfDel v.id = A.arrival v.id) ∧
      (A.isDel v.id = false → A.arrIfDel v.id = 1440)) ∧
  (if vehicles = [] then A.isAny = false ∧ A.earliest = 0
   else
      (A.isAny = true → ∃ v ∈ vehicles, A.isDel v.id = true) ∧
      (A.isAny = false → ∀ v ∈ vehicles, A.isDel v.id = false) ∧
      (A.isAny = true → isMinOf A.earliest (vehicles.map fun v => A.arrIfDel v.id)) ∧
      (A.isAny = false → A.earliest = 0)) ∧
  demandFeasible steps base A.earliest A.cap (fun i => A.seg i.val) ∧
  (A.isAny = true → A.net ≤ A.cap) ∧
  (A.isAny = false → A.net ≤ 0)

instance (vehicles : List Vehicle) (steps : List DemandStep) (base : Int)
    (A : DemandSatAssign) : Decidable (demandSatConstraints vehicles steps base A) := by
  unfold demandSatConstraints; infer_instance

/-- C4: in every feasible assignment of the emitted demand-satisfaction
constraint set (sorted steps with distinct time limits), the net delivered
quantity is at most the demand-cap function evaluated at the minimum arrival
time among vehicles with strictly positive delivery — whenever such a vehicle
exists — and is at most 0 when no vehicle delivers. -/
theorem demand_net_bounded_by_cap
    (vehicles : List Vehicle) (steps : List DemandStep) (base : Int)
    (A : DemandSatAssign)
    (hsort : steps.Pairwise fun a b => a.time_limit < b.time_limit)
    (hfeas : demandSatConstraints vehicles steps base A) :
    ((vehicles.filter fun v => 0 < A.d v.id) ≠ [] →
       ∀ m : Int,
         isMinOf m ((vehicles.filter fun v => 0 < A.d v.id).map fun v => A.arrival v.id) →
         ∃ c : Int, capValueAt steps base m = some c ∧ A.net ≤ c) ∧
    ((vehicles.filter fun v => 0 < A.d v.id) = [] → A.net ≤ 0) := by
  obtain ⟨hdom, -, -, -, hflags, hany, hdf, hcap1, hcap2⟩ := hfeas
  constructor
  · intro hne m hmin
    obtain ⟨v0, hv0⟩ := List.exists_mem_of_ne_nil _ hne
    have hv0veh : v0 ∈ vehicles := (List.mem_filter.mp hv0).1
    have hv0pos : 0 < A.d v0.id := of_decide_eq_true (List.mem_filter.mp hv0).2
    have hvne : vehicles ≠ [] := List.ne_nil_of_mem hv0veh
    rw [if_neg hvne] at hany
    obtain ⟨-, hany2, hany3, -⟩ := hany
    have hisany : A.isAny = true := by
      cases hA : A.isAny with
      | true => rfl
      | false =>
          have := (hflags v0 hv0veh).2.1 (hany2 hA v0 hv0veh)
          omega
    have hmine := hany3 hisany
    have hdel_true : ∀ v ∈ vehicles, 0 < A.d v.id → A.isDel v.id = true := by
      intro v hv hpos
      cases hA : A.isDel v.id with
      | true => rfl
      | false =>
          have := (hflags v hv).2.1 hA
          omega
    have hminDel : isMinOf A.earliest
        ((vehicles.filter fun v => 0 < A.d v.id).map fun v => A.arrival v.id) := by
      constructor
      · intro x hx
        obtain ⟨v, hvf, hvx⟩ := List.mem_map.mp hx
        have hvveh : v ∈ vehicles := (List.mem_filter.mp hvf).1
        have hvpos : 0 < A.d v.id := of_decide_eq_true (List.mem_filter.mp hvf).2
        have harr : A.arrIfDel v.id = A.arrival v.id :=
          (hflags v hvveh).2.2.1 (hdel_true v hvveh hvpos)
        have := hmine.1 (A.arrIfDel v.id) (List.mem_map.mpr ⟨v, hvveh, rfl⟩)
        omega
      · obtain ⟨v, hvveh, hveq⟩ := List.mem_map.mp hmine.2
        cases hA : A.isDel v.id with
        | true =>
            have harr : A.arrIfDel v.id = A.arrival v.id := (hflags v hvveh).2.2.1 hA
            have hvpos : 0 < A.d v.id := (hflags v hvveh).1 hA
            refine List.mem_map.mpr ⟨v, List.mem_filter.mpr ⟨hvveh, decide_eq_true hvpos⟩, ?_⟩
            omega
        | false =>
            have h1440 : A.arrIfDel v.id = 1440 := (hflags v hvveh).2.2.2 hA
            have harr0 : A.arrIfDel v0.id = A.arrival v0.id :=
              (hflags v0 hv0veh).2.2.1 (hdel_true v0 hv0veh hv0pos)
            have hle := hmine.1 (A.arrIfDel v0.id) (List.mem_map.mpr ⟨v0, hv0veh, rfl⟩)
            have hdom0 := (hdom v0 hv0veh).2.2.1
            refine List.mem_map.mpr ⟨v0, List.mem_filter.mpr ⟨hv0veh, decide_eq_true hv0pos⟩, ?_⟩
            omega
    have hm_eq : m = A.earliest := by
      have h1 := hmin.1 A.earliest hminDel.2
      have h2 := hminDel.1 m hmin.2
      omega
    have hcv : capValueAt steps base A.earliest = some A.cap :=
      capValueAt_of_feasible hsort hdf
    exact ⟨A.cap, by rw [hm_eq, hcv], hcap1 hisany⟩
  · intro hempty
    have hnodel : ∀ v ∈ vehicles, A.isDel v.id = false := by
      intro v hv
      cases hA : A.isDel v.id with
      | false => rfl
      | true =>
          have hpos := (hflags v hv).1 hA
          have : v ∈ vehicles.filter fun v => 0 < A.d v.id :=
            List.mem_filter.mpr ⟨hv, decide_eq_true hpos⟩
          rw [hempty] at this
          exact absurd this (List.not_mem_nil v)
    have hisany : A.isAny = false := by
      by_cases hvne : vehicles = []
      · rw [if_pos hvne] at hany
        exact hany.1
      · rw [if_neg hvne] at hany
        cases hA : A.isAny with
        | false => rfl
        | true =>
            obtain ⟨v, hv, hvtrue⟩ := hany.1 hA
            rw [hnodel v hv] at hvtrue
            exact absurd hvtrue (by simp)
    exact hcap2 hisany

/-- Concrete assignment for the C4 witness: the single vehicle delivers 50
units at time 10; the single demand interval `[0, 1440]` has multiplier 100,
so the cap is 100 and the net 50 respects it. -/
def exDemandAssign : DemandSatAssign :=
  { net := 50
    d := fun _ => 50
    p := fun _ => 0
    arrival := fun _ => 10
    isDel := fun _ => true
    arrIfDel := fun _ => 10
    isAny := true
    earliest := 10
    cap := 100
    seg := fun i => decide (i = 0) }

/-- C4 witness: the theorem applied to the concrete feasible assignment. -/
theorem demand_net_bounded_by_cap_witness :
    ∃ c : Int, capValueAt [⟨1441, 100⟩] 100 10 = some c ∧ exDemandAssign.net ≤ c :=
  (demand_net_bounded_by_cap [exVehicle] [⟨1441, 100⟩] 100 exDemandAssign
      (by decide) (by decide)).1 (by decide) 10 (by decide)

/-! ### dinkelbach_orchestrator.py (C3)

The inner CP-SAT solve is external: it is abstracted by two oracles,
`status k` (the solver status reported at iteration `k`) and `vals k` (the
solver values of the scaled numerator/denominator expressions at iteration
`k`, read only on an optimal/feasible status).  Python float arithmetic on
`best_lambda`/`epsilon` is embedded as rational arithmetic; the
`scaled_lambda_int` fixed-point value only shapes the objective handed to the
abstracted solver and therefore does not appear. -/

/-- CP-SAT statuses distinguished by `DinkelbachOrchestrator.solve`. -/
inductive SolverStatus where
  | optimal
  | feasible
  | infeasible
  | aborted
  | unknown
deriving DecidableEq, Repr

/-- The `best_solution_info` record of one successful iteration (solver and
var-manager objects are opaque; the iteration index identifies them). -/
structure IterationInfo where
  iteration : Nat
  numerator_value_scaled : Int
  denominator_value_scaled : Int
  optimal_lambda : Rat
deriving DecidableEq, Repr

/-- Outcome of one `for` iteration of `solve`: `return None`, `break` with
this iteration recorded as best, `break` keeping the previous record, or
continue into the next iteration with a new `best_lambda` and record. -/
inductive BodyResult where
  | retNone
  | brkNew (info : IterationInfo)
  | brkOld
  | cont (newLambda : Rat) (info : IterationInfo)
deriving DecidableEq, Repr

/-- The convergence test and best-solution recording (lines after the lambda
update): converged ⟹ break with this iteration recorded; otherwise continue
with `best_lambda := new_lambda` and this iteration recorded. -/
def dinkelbachConvergence (eps : Rat) (iteration : Nat) (best_lambda new_lambda : Rat)
    (ns ds : Int) : BodyResult :=
  if |new_lambda - best_lambda| < eps then
    BodyResult.brkNew ⟨iteration, ns, ds, new_lambda⟩
  else
    BodyResult.cont new_lambda ⟨iteration, ns, ds, new_lambda⟩

/-- One iteration body of `DinkelbachOrchestrator.solve`. -/
def dinkelbachBody (status : Nat → SolverStatus) (vals : Nat → Int × Int)
    (scale eps : Rat) (iteration : Nat) (best_lambda : Rat) : BodyResult :=
  if status iteration = SolverStatus.optimal ∨ status iteration = SolverStatus.feasible then
    if ((vals iteration).2 : Rat) / scale = 0 then
      if ((vals iteration).1 : Rat) / scale = 0 then
        dinkelbachConvergence eps iteration best_lambda 0
          (vals iteration).1 (vals iteration).2
      else if iteration = 0 ∧ 0 < ((vals iteration).1 : Rat) / scale then
        BodyResult.retNone
      else BodyResult.brkOld
    else
      dinkelbachConvergence eps iteration best_lambda
        ((((vals iteration).1 : Rat) / scale) / (((vals iteration).2 : Rat) / scale))
        (vals iteration).1 (vals iteration).2
  else if status iteration = SolverStatus.infeasible then
    if iteration = 0 then BodyResult.retNone else BodyResult.brkOld
  else if status iteration = SolverStatus.aborted then BodyResult.brkOld
  else BodyResult.brkOld

/-- The iteration loop of `solve`, with the trailing
`return Solution if best_solution_info else None` (the presentation-layer
build step is the identity on the recorded info). -/
def dinkelbachLoop (status : Nat → SolverStatus) (vals : Nat → Int × Int)
    (scale eps : Rat) : Nat → Nat → Rat → Option IterationInfo → Option IterationInfo
  | 0, _, _, best => best
  | fuel + 1, iteration, best_lambda, best =>
      match dinkelbachBody status vals scale eps iteration best_lambda with
      | BodyResult.retNone => none
      | BodyResult.brkNew info => some info
      | BodyResult.brkOld => best
      | BodyResult.cont newL info =>
          dinkelbachLoop status vals scale eps fuel (iteration + 1) newL (some info)

/-- `DinkelbachOrchestrator.solve` (`best_lambda` starts at 0, no recorded
best, `max_iterations` loop iterations). -/
def dinkelbachSolve (status : Nat → SolverStatus) (vals : Nat → Int × Int)
    (scale eps : Rat) (max_iterations : Nat) : Option IterationInfo :=
  dinkelbachLoop status vals scale eps max_iterations 0 0 none

/-- The loop state `(best_lambda, best_solution_info)` at the start of
iteration `k` (`none` when the loop already exited before reaching it). -/
def dinkelbachState (status : Nat → SolverStatus) (vals : Nat → Int × Int)
    (scale eps : Rat) : Nat → Option (Rat × Option IterationInfo)
  | 0 => some (0, none)
  | k + 1 =>
      (dinkelbachState status vals scale eps k).bind fun st =>
        match dinkelbachBody status vals scale eps k st.1 with
        | BodyResult.cont newL info => some (newL, some info)
        | _ => none

lemma dinkelbachBody_cont_iteration {status : Nat → SolverStatus}
    {vals : Nat → Int × Int} {scale eps : Rat} {k : Nat} {bl nl : Rat}
    {info : IterationInfo}
    (h : dinkelbachBody status vals scale eps k bl = BodyResult.cont nl info) :
    info.iteration = k := by
  unfold dinkelbachBody dinkelbachConvergence at h
  split_ifs at h <;>
    first
      | exact BodyResult.noConfusion h
      | (injection h with h1 h2
         rw [← h2])

/-- The recorded best at the start of iteration `k + 1` is iteration `k`'s
info. -/
lemma dinkelbachState_best {status : Nat → SolverStatus} {vals : Nat → Int × Int}
    {scale eps : Rat} {k : Nat} {bl : Rat} {best : Option IterationInfo}
    (h : dinkelbachState status vals scale eps (k + 1) = some (bl, best)) :
    ∃ info, best = some info ∧ info.iteration = k := by
  unfold dinkelbachState at h
  cases hs : dinkelbachState status vals scale eps k with
  | none =>
      rw [hs] at h
      exact absurd h (by simp)
  | some st =>
      rw [hs] at h
      simp only [Option.some_bind] at h
      cases hb : dinkelbachBody status vals scale eps k st.1 with
      | retNone => rw [hb] at h; exact absurd h (by simp)
      | brkNew info => rw [hb] at h; exact absurd h (by simp)
      | brkOld => rw [hb] at h; exact absurd h (by simp)
      | cont newL info =>
          rw [hb] at h
          simp only [Option.some.injEq, Prod.mk.injEq] at h
          exact ⟨info, h.2.symm, dinkelbachBody_cont_iteration hb⟩

/-- If the loop reaches iteration `k` with state `(bl, best)`, the whole solve
behaves as the residual loop from there. -/
lemma dinkelbachSolve_eq_loop (status : Nat → SolverStatus) (vals : Nat → Int × Int)
    (scale eps : Rat) (max_iterations : Nat) :
    ∀ (k : Nat) (bl : Rat) (best : Option IterationInfo),
      dinkelbachState status vals scale eps k = some (bl, best) →
      k ≤ max_iterations →
      dinkelbachSolve status vals scale eps max_iterations =
        dinkelbachLoop status vals scale eps (max_iterations - k) k bl best
  | 0, bl, best, h, _ => by
      injection h with h'
      injection h' with h1 h2
      rw [dinkelbachSolve, Nat.sub_zero, ← h1, ← h2]
  | k + 1, bl, best, h, hle => by
      rw [dinkelbachState] at h
      cases hs : dinkelbachState status vals scale eps k with
      | none =>
          rw [hs] at h
          exact absurd h (by simp)
      | some st =>
          rw [hs] at h
          simp only [Option.some_bind] at h
          cases hb : dinkelbachBody status vals scale eps k st.1 with
          | retNone => rw [hb] at h; exact absurd h (by simp)
          | brkNew info => rw [hb] at h; exact absurd h (by simp)
          | brkOld => rw [hb] at h; exact absurd h (by simp)
          | cont newL info =>
              rw [hb] at h
              simp only [Option.some.injEq, Prod.mk.injEq] at h
              obtain ⟨hbl, hbest⟩ := h
              have ih := dinkelbachSolve_eq_loop status vals scale eps max_iterations
                k st.1 st.2 (by rw [hs]) (by omega)
              have hfuel : max_iterations - k = (max_iterations - (k + 1)) + 1 := by omega
              rw [ih, hfuel, dinkelbachLoop, hb, ← hbl, ← hbest]

lemma dinkelbachBody_infeasible {status : Nat → SolverStatus} {vals : Nat → Int × Int}
    {scale eps : Rat} {k : Nat} {bl : Rat} (h : status k = SolverStatus.infeasible) :
    dinkelbachBody status vals scale eps k bl =
      if k = 0 then BodyResult.retNone else BodyResult.brkOld := by
  unfold dinkelbachBody
  rw [if_neg (by simp [h]), if_pos h]

lemma dinkelbachBody_abort_or_unknown {status : Nat → SolverStatus} {vals : Nat → Int × Int}
    {scale eps : Rat} {k : Nat} {bl : Rat}
    (h : status k = SolverStatus.aborted ∨ status k = SolverStatus.unknown) :
    dinkelbachBody status vals scale eps k bl = BodyResult.brkOld := by
  unfold dinkelbachBody
  rcases h with h | h
  · rw [if_neg (by simp [h]), if_neg (by simp [h]), if_pos h]
  · rw [if_neg (by simp [h]), if_neg (by simp [h]), if_neg (by simp [h])]

/-- C3: `DinkelbachOrchestrator.solve` — INFEASIBLE on the very first
iteration returns `None`; INFEASIBLE on any later (reached) iteration stops
and returns the previous iteration's recorded best; ABORTED or unknown status
stops and returns the best recorded so far, which is `None` exactly when no
iteration was ever recorded (iteration 0). -/
theorem dinkelbach_failure_statuses
    (status : Nat → SolverStatus) (vals : Nat → Int × Int) (scale eps : Rat)
    (max_iterations : Nat) :
    (status 0 = SolverStatus.infeasible → 1 ≤ max_iterations →
       dinkelbachSolve status vals scale eps max_iterations = none) ∧
    (∀ (k : Nat) (bl : Rat) (best : Option IterationInfo),
       dinkelbachState status vals scale eps k = some (bl, best) →
       k < max_iterations →
       (0 < k → status k = SolverStatus.infeasible →
          dinkelbachSolve status vals scale eps max_iterations = best ∧
          ∃ info, best = some info ∧ info.iteration = k - 1) ∧
       (status k = SolverStatus.aborted ∨ status k = SolverStatus.unknown →
          dinkelbachSolve status vals scale eps max_iterations = best ∧
          (k = 0 → best = none) ∧
          (0 < k → ∃ info, best = some info ∧ info.iteration = k - 1))) := by
  constructor
  · intro h0 h1
    obtain ⟨m, hm⟩ : ∃ m, max_iterations = m + 1 := ⟨max_iterations - 1, by omega⟩
    rw [hm, dinkelbachSolve, dinkelbachLoop, dinkelbachBody_infeasible h0,
      if_pos (rfl : (0 : Nat) = 0)]
  · intro k bl best hstate hk
    have hsolve := dinkelbachSolve_eq_loop status vals scale eps max_iterations
      k bl best hstate (le_of_lt hk)
    obtain ⟨m, hm⟩ : ∃ m, max_iterations - k = m + 1 := ⟨max_iterations - k - 1, by omega⟩
    constructor
    · intro hkpos hinf
      have hbest : ∃ info, best = some info ∧ info.iteration = k - 1 := by
        obtain ⟨k', hk'⟩ : ∃ k', k = k' + 1 := ⟨k - 1, by omega⟩
        subst hk'
        obtain ⟨i, hi1, hi2⟩ := dinkelbachState_best hstate
        exact ⟨i, hi1, by omega⟩
      refine ⟨?_, hbest⟩
      rw [hsolve, hm, dinkelbachLoop, dinkelbachBody_infeasible hinf, if_neg (by omega)]
    · intro hau
      refine ⟨?_, ?_, ?_⟩
      · rw [hsolve, hm, dinkelbachLoop, dinkelbachBody_abort_or_unknown hau]
      · intro hk0
        subst hk0
        injection hstate with h'
        injection h' with h1 h2
        exact h2.symm
      · intro hkpos
        obtain ⟨k', hk'⟩ : ∃ k', k = k' + 1 := ⟨k - 1, by omega⟩
        subst hk'
        obtain ⟨i, hi1, hi2⟩ := dinkelbachState_best hstate
        exact ⟨i, hi1, by omega⟩

/-- Solver oracle for the C3 witness: feasible at iteration 0, infeasible
afterwards. -/
def exStatusFeasThenInf : Nat → SolverStatus :=
  fun k => if k = 0 then SolverStatus.feasible else SolverStatus.infeasible

/-- Value oracle for the C3 witness: scaled numerator 1, denominator 2. -/
def exValsConst : Nat → Int × Int := fun _ => (1, 2)

/-- The info recorded at iteration 0 of the C3 witness run
(`new_lambda = (1/1)/(2/1) = 1/2`). -/
def exInfo0 : IterationInfo := ⟨0, 1, 2, 1 / 2⟩

lemma exBody0 :
    dinkelbachBody exStatusFeasThenInf exValsConst 1 (1 / 4) 0 0 =
      BodyResult.cont (1 / 2) exInfo0 := by
  unfold dinkelbachBody dinkelbachConvergence exStatusFeasThenInf exValsConst exInfo0
  norm_num
  intro habs
  have habs' : ¬ (|(1 / 2 : Rat)| < 1 / 4) := by
    rw [abs_of_nonneg (by norm_num)]
    norm_num
  exact absurd habs habs'

lemma exState1 :
    dinkelbachState exStatusFeasThenInf exValsConst 1 (1 / 4) 1 =
      some (1 / 2, some exInfo0) := by
  rw [dinkelbachState, dinkelbachState]
  simp only [Option.some_bind]
  rw [exBody0]

/-- C3 witness: the theorem applied to the concrete oracles — infeasible at
iteration 1 returns iteration 0's record; infeasible at iteration 0 returns
`None`. -/
theorem dinkelbach_failure_statuses_witness :
    dinkelbachSolve exStatusFeasThenInf exValsConst 1 (1 / 4) 5 = some exInfo0 ∧
    dinkelbachSolve (fun _ => SolverStatus.infeasible) exValsConst 1 (1 / 4) 5 = none := by
  constructor
  · exact (((dinkelbach_failure_statuses exStatusFeasThenInf exValsConst 1 (1 / 4) 5).2
      1 (1 / 2) (some exInfo0) exState1 (by omega)).1 (by omega) rfl).1
  · exact (dinkelbach_failure_statuses (fun _ => SolverStatus.infeasible) exValsConst
      1 (1 / 4) 5).1 rfl (by omega)

end Logistics
